import Mathlib

/-!
Shallow embedding of the Moon Dev flow UI client (validation, run gating,
store updates, WebSocket transport) together with proofs about it.

Sources embedded:
* `src/ui/src/utils/flowValidation.ts` (`validateFlow`)
* `src/ui/src/components/Sidebar/Sidebar.tsx` (`handleRunFlow`)
* `src/ui/src/store/flowStore.ts` (`updateNodeConfig`)
* `src/ui/src/api/client.ts` (`wsAPI.connectExecution`)
* `src/ui/src/hooks/useWebSocket.ts` (`useWebSocket` reconnect logic)
-/

/-- Severity of a validation finding (the string union of error and warning in
the source). -/
inductive Sev where
  | error : Sev
  | warning : Sev
deriving DecidableEq, Repr

/-- Embeds `ValidationError { type, message, nodeId? }` from `flowValidation.ts`. -/
structure ValidationError where
  type : Sev
  message : String
  nodeId : Option String
deriving DecidableEq, Repr

/-- Embeds `ValidationResult { isValid, errors }` from `flowValidation.ts`. -/
structure ValidationResult where
  isValid : Bool
  errors : List ValidationError
deriving DecidableEq, Repr

/-- Node canvas position (numeric payload is irrelevant to the claims;
coordinates are carried opaquely as integers). -/
structure Position where
  x : Int
  y : Int
deriving DecidableEq, Repr

/-- The `data` payload of an `@xyflow/react` node as this app builds it:
`{ type, label, description, config }`, each possibly absent. -/
structure NodeData where
  type : Option String
  label : Option String
  description : Option String
  config : Option (List (String × String))
deriving DecidableEq, Repr

/-- An `@xyflow/react` `Node` restricted to the fields this app reads. -/
structure Node where
  id : String
  type : Option String
  position : Position
  data : NodeData
deriving DecidableEq, Repr

/-- An `@xyflow/react` `Edge` restricted to the fields this app reads. -/
structure Edge where
  id : String
  source : String
  target : String
deriving DecidableEq, Repr

/-- JavaScript truthiness of `node.data?.type` (a string is falsy iff it is
`undefined` or the empty string). -/
def isTruthy : Option String → Bool
  | none => false
  | some s => decide (s ≠ "")

/-- JavaScript template-literal rendering of a possibly-`undefined` string
(`${nodeType}` prints `undefined` when the field is absent). -/
def interp : Option String → String
  | none => "undefined"
  | some s => s

/-- Embeds `node.data?.config && Object.keys(node.data.config).length > 0`. -/
def hasConfig (n : Node) : Bool :=
  match n.data.config with
  | none => false
  | some cfg => cfg.length > 0

/-- The single error pushed for an empty node list. -/
def emptyFlowError : ValidationError :=
  { type := Sev.error, message := "Flow must contain at least one node", nodeId := none }

/-- The error pushed for a node with a falsy `data.type`. -/
def noTypeError (n : Node) : ValidationError :=
  { type := Sev.error
    message := "Node " ++ n.id ++ " has no agent type"
    nodeId := some n.id }

/-- The warning pushed for a node with no configuration entries. -/
def noConfigWarning (n : Node) : ValidationError :=
  { type := Sev.warning
    message := "Node " ++ n.id ++ " (" ++ interp n.data.type ++ ") has no configuration"
    nodeId := some n.id }

/-- The warning pushed for a node touched by no edge. -/
def notConnectedWarning (n : Node) : ValidationError :=
  { type := Sev.warning
    message := "Node " ++ n.id ++ " (" ++ interp n.data.type ++ ") is not connected to any other nodes"
    nodeId := some n.id }

/-- The per-node loop of `validateFlow`: for each node, an error if its agent
type is falsy, then a warning if it has no configuration, all collected. -/
def perNodeFindings (nodes : List Node) : List ValidationError :=
  nodes.flatMap fun n =>
    (if isTruthy n.data.type then [] else [noTypeError n]) ++
    (if hasConfig n then [] else [noConfigWarning n])

/-- The `connectedNodeIds` set: every edge source and target id, deduplicated,
so that its length is the `size` of the JavaScript `Set`. -/
def connectedNodeIds (edges : List Edge) : List String :=
  (edges.flatMap fun e => [e.source, e.target]).dedup

/-- The "check for disconnected nodes" block of `validateFlow`: guarded by
`nodes.length > 1 && connectedNodeIds.size < nodes.length`, it warns about
each node whose id the `connectedNodeIds` set does not contain. -/
def discWarnings (nodes : List Node) (edges : List Edge) : List ValidationError :=
  if nodes.length > 1 ∧ (connectedNodeIds edges).length < nodes.length then
    (nodes.filter fun n => decide (n.id ∉ connectedNodeIds edges)).map notConnectedWarning
  else []

/-- The full list of findings `validateFlow` accumulates on a non-empty node
list: the per-node loop entries followed by the disconnected-node block. -/
def flowFindings (nodes : List Node) (edges : List Edge) : List ValidationError :=
  perNodeFindings nodes ++ discWarnings nodes edges

/-- Embeds `validateFlow(nodes, edges)` from `flowValidation.ts`. -/
def validateFlow (nodes : List Node) (edges : List Edge) : ValidationResult :=
  if nodes.length = 0 then
    { isValid := false, errors := [emptyFlowError] }
  else
    let errors := flowFindings nodes edges
    { isValid := !(errors.any fun e => decide (e.type = Sev.error)), errors := errors }

/-- A node appears as neither the source nor the target of any edge.  This is
the predicate the not-connected rule of the specification quantifies over. -/
def untouched (n : Node) (edges : List Edge) : Prop :=
  ∀ e ∈ edges, e.source ≠ n.id ∧ e.target ≠ n.id

instance (n : Node) (edges : List Edge) : Decidable (untouched n edges) := by
  unfold untouched; infer_instance

/-- Outcome of the Sidebar run-button click handler: the validation banner it
sets and whether it invoked the `onRunFlow` action. -/
structure RunFlowOutcome where
  validationMessage : String
  runInvoked : Bool
deriving DecidableEq, Repr

/-- Embeds `handleRunFlow` from `Sidebar.tsx`: validate, and either show the
joined error-severity messages and stop, or clear the banner and run. -/
def handleRunFlow (nodes : List Node) (edges : List Edge) : RunFlowOutcome :=
  let validation := validateFlow nodes edges
  if !validation.isValid then
    let errorMsg := String.intercalate "\n"
      ((validation.errors.filter fun e => decide (e.type = Sev.error)).map
        ValidationError.message)
    { validationMessage := "❌ Flow validation failed:\n" ++ errorMsg, runInvoked := false }
  else
    { validationMessage := "", runInvoked := true }

/-- Embeds `updateNodeConfig` from `flowStore.ts`: map over the stored nodes,
replacing `data.config` on each node whose id matches. -/
def updateNodeConfig (nodes : List Node) (nodeId : String)
    (config : List (String × String)) : List Node :=
  nodes.map fun node =>
    if node.id = nodeId then
      { node with data := { node.data with config := some config } }
    else node

/-- Effects the `ws.onmessage` handler of `wsAPI.connectExecution` can emit. -/
inductive WsEffect (α : Type) where
  | callOnMessage : α → WsEffect α
  | logParseError : WsEffect α
deriving DecidableEq, Repr

/-- Embeds the `ws.onmessage` handler of `wsAPI.connectExecution`:
`try` parse the event payload and hand it to `onMessage`; on a parse failure
the exception is caught and only an error is logged.  `JSON.parse` is a
platform built-in, abstracted as a fallible parse function (`none` = throw). -/
def onmessageHandler {α : Type} (parseJSON : String → Option α)
    (eventData : String) : List (WsEffect α) :=
  match parseJSON eventData with
  | some data => [WsEffect.callOnMessage data]
  | none => [WsEffect.logParseError]

/-- Embeds `API_BASE.replace(...)` in `connectExecution`: the regex strips a
leading `http://` or `https://` scheme, if present, and nothing else. -/
def stripHttpScheme (s : String) : String :=
  if s.startsWith "https://" then s.drop 8
  else if s.startsWith "http://" then s.drop 7
  else s

/-- The WebSocket URL `connectExecution` opens (and re-opens on reconnect):
protocol, host, and the fixed path ending in the execution id. -/
def connectExecutionUrl (apiBase : String) (executionId : String) : String :=
  (if apiBase.startsWith "https" then "wss" else "ws") ++ "://"
    ++ stripHttpScheme apiBase ++ "/ws/execution/" ++ executionId

/-- The actions the wrapped `ws.onclose` handler of `useWebSocket` performs,
in source order. -/
inductive CloseAction where
  | logClosed : CloseAction
  | setIsConnected : Bool → CloseAction
  | callOnDisconnect : CloseAction
  | scheduleReconnect : Nat → CloseAction
deriving DecidableEq, Repr

/-- Embeds the wrapped `ws.onclose` body of `useWebSocket`: run the original
close handler (a log), set `isConnected` to false, fire the `onDisconnect`
callback, and schedule one `connect()` retry via `setTimeout(connect, 3000)`. -/
def oncloseActions : List CloseAction :=
  [CloseAction.logClosed, CloseAction.setIsConnected false,
   CloseAction.callOnDisconnect, CloseAction.scheduleReconnect 3000]

/-- Recognizes the reconnect-scheduling action. -/
def isScheduleReconnect : CloseAction → Bool
  | CloseAction.scheduleReconnect _ => true
  | _ => false

/-- A subscription request to the execution event stream: the execution id and
an optional replay point. -/
structure SubscribeRequest where
  executionId : String
  fromSequence : Option Nat
deriving DecidableEq, Repr

/-- The subscription issued when the reconnect timer fires: `connect()` calls
`wsAPI.connectExecution(executionId, ...)`, whose request URL
(`connectExecutionUrl`) carries the execution id and no sequence or replay
parameter, so the replay point is absent. -/
def reconnectSubscribeRequest (executionId : String) : SubscribeRequest :=
  { executionId := executionId, fromSequence := none }

/-- Modelled from the spec: the Event Hub operation `subscribe(executionId,
fromSequence?)` and its delivery rule (spec section 4.5; the backend
implementing the hub is not in the source tree).  With `fromSequence` given it
first replays buffered events with sequence at least `fromSequence`, then
delivers live events; with no `fromSequence` it delivers only live events. -/
def subscribeDelivered (buffered : List Nat) (live : List Nat)
    (fromSequence : Option Nat) : List Nat :=
  match fromSequence with
  | some k => buffered.filter (fun s => decide (k ≤ s)) ++ live
  | none => live

/-! Concrete fixtures used by witnesses and counterexamples. -/

/-- A configured trading node with id `a`. -/
def nodeA : Node :=
  { id := "a", type := some "agent", position := { x := 0, y := 0 },
    data := { type := some "trading", label := none, description := none,
              config := some [("symbol", "BTC")] } }

/-- A configured risk node with id `b`. -/
def nodeB : Node :=
  { id := "b", type := some "agent", position := { x := 0, y := 0 },
    data := { type := some "risk", label := none, description := none,
              config := some [("limit", "5")] } }

/-- A node with id `c` lacking an agent type and any configuration. -/
def nodeC : Node :=
  { id := "c", type := some "agent", position := { x := 0, y := 0 },
    data := { type := none, label := none, description := none,
              config := none } }

/-- Edge from `a` to `b`. -/
def edgeAB : Edge := { id := "e-ab", source := "a", target := "b" }

/-- Edge from `b` back to `a` (closing a cycle). -/
def edgeBA : Edge := { id := "e-ba", source := "b", target := "a" }

/-- A dangling edge from `a` to a node id `z` that no node carries. -/
def edgeAZ : Edge := { id := "e-az", source := "a", target := "z" }

/-! Helper lemmas about the validation embedding. -/

/-- Last character of the no-configuration warning message. -/
lemma configMsg_last (a t : String) :
    ("Node " ++ a ++ " (" ++ t ++ ") has no configuration").data.getLast? = some 'n' := by
  rw [String.data_append, List.getLast?_append_of_ne_nil]
  · decide
  · decide

/-- Last character of the not-connected warning message. -/
lemma discMsg_last (b s : String) :
    ("Node " ++ b ++ " (" ++ s ++ ") is not connected to any other nodes").data.getLast?
      = some 's' := by
  rw [String.data_append, List.getLast?_append_of_ne_nil]
  · decide
  · decide

/-- A no-configuration warning is never equal to a not-connected warning:
their messages end in different characters. -/
lemma noConfigWarning_ne_notConnectedWarning (m n : Node) :
    noConfigWarning m ≠ notConnectedWarning n := by
  intro h
  have h2 := congrArg (fun x => x.message.data.getLast?) h
  simp only [noConfigWarning, notConnectedWarning] at h2
  rw [configMsg_last, discMsg_last] at h2
  simp at h2

/-- A missing-type error is never equal to a not-connected warning: the
severities differ. -/
lemma noTypeError_ne_notConnectedWarning (m n : Node) :
    noTypeError m ≠ notConnectedWarning n := by
  intro h
  have h2 := congrArg ValidationError.type h
  simp [noTypeError, notConnectedWarning] at h2

/-- A missing-type error is never equal to a no-configuration warning: the
severities differ. -/
lemma noTypeError_ne_noConfigWarning (m n : Node) :
    noTypeError m ≠ noConfigWarning n := by
  intro h
  have h2 := congrArg ValidationError.type h
  simp [noTypeError, noConfigWarning] at h2

/-- Missing-type errors of two nodes coincide exactly when the node ids do. -/
lemma noTypeError_eq_iff {m n : Node} : noTypeError m = noTypeError n ↔ m.id = n.id := by
  constructor
  · intro h
    have h2 := congrArg ValidationError.nodeId h
    simpa [noTypeError] using h2
  · intro h
    simp [noTypeError, h]

/-- Equal no-configuration warnings come from nodes with equal ids. -/
lemma noConfigWarning_id_of_eq {m n : Node} (h : noConfigWarning m = noConfigWarning n) :
    m.id = n.id := by
  have h2 := congrArg ValidationError.nodeId h
  simpa [noConfigWarning] using h2

/-- Membership in `connectedNodeIds` is being an endpoint of some edge. -/
lemma mem_connectedNodeIds {s : String} {edges : List Edge} :
    s ∈ connectedNodeIds edges ↔ ∃ e ∈ edges, e.source = s ∨ e.target = s := by
  simp [connectedNodeIds, List.mem_dedup, List.mem_flatMap, or_comm, eq_comm]

/-- Being `untouched` is exactly absence from the `connectedNodeIds` set. -/
lemma untouched_iff_not_mem {n : Node} {edges : List Edge} :
    untouched n edges ↔ n.id ∉ connectedNodeIds edges := by
  rw [mem_connectedNodeIds]
  unfold untouched
  push_neg
  constructor
  · intro h e he
    exact ⟨(h e he).1, (h e he).2⟩
  · intro h e he
    exact ⟨(h e he).1, (h e he).2⟩

/-- On a non-empty node list, `validateFlow` returns the accumulated findings
and validity derived from them. -/
lemma validateFlow_of_ne_nil {nodes : List Node} (edges : List Edge) (h : nodes ≠ []) :
    validateFlow nodes edges =
      { isValid := !((flowFindings nodes edges).any fun e => decide (e.type = Sev.error)),
        errors := flowFindings nodes edges } := by
  rw [validateFlow, if_neg]
  simpa using h

/-- Every entry of the per-node loop is a missing-type error pushed for a node
with a falsy type, or a no-configuration warning pushed for a node without
configuration entries. -/
lemma mem_perNodeFindings {e : ValidationError} {nodes : List Node}
    (h : e ∈ perNodeFindings nodes) :
    ∃ n ∈ nodes, (e = noTypeError n ∧ isTruthy n.data.type = false)
               ∨ (e = noConfigWarning n ∧ hasConfig n = false) := by
  rw [perNodeFindings, List.mem_flatMap] at h
  obtain ⟨n, hn, hmem⟩ := h
  refine ⟨n, hn, ?_⟩
  rw [List.mem_append] at hmem
  rcases hmem with hmem | hmem
  · left
    rcases hh : isTruthy n.data.type <;> simp_all
  · right
    rcases hh : hasConfig n <;> simp_all

/-- Every entry of the disconnected-node block is a not-connected warning for
a node of the graph untouched by every edge. -/
lemma mem_discWarnings {e : ValidationError} {nodes : List Node} {edges : List Edge}
    (h : e ∈ discWarnings nodes edges) :
    ∃ n ∈ nodes, e = notConnectedWarning n ∧ untouched n edges := by
  rw [discWarnings] at h
  split at h
  · rw [List.mem_map] at h
    obtain ⟨n, hn, rfl⟩ := h
    rw [List.mem_filter] at hn
    refine ⟨n, hn.1, rfl, ?_⟩
    rw [untouched_iff_not_mem]
    simpa using hn.2
  · simp at h

/-- When every edge endpoint references an existing node id, the
`connectedNodeIds` set of ids is contained in the node ids. -/
lemma connectedNodeIds_subset {nodes : List Node} {edges : List Edge}
    (hwf : ∀ e ∈ edges, e.source ∈ nodes.map Node.id ∧ e.target ∈ nodes.map Node.id) :
    ∀ s ∈ connectedNodeIds edges, s ∈ nodes.map Node.id := by
  intro s hs
  rw [mem_connectedNodeIds] at hs
  obtain ⟨e, he, hcase⟩ := hs
  rcases hcase with h | h
  · exact h ▸ (hwf e he).1
  · exact h ▸ (hwf e he).2

/-- When every edge endpoint references an existing node id and some node is
untouched, the `connectedNodeIds` set is strictly smaller than the node list,
so the guard of the disconnected-node block fires. -/
lemma connectedNodeIds_length_lt {nodes : List Node} {edges : List Edge}
    (hwf : ∀ e ∈ edges, e.source ∈ nodes.map Node.id ∧ e.target ∈ nodes.map Node.id)
    {n : Node} (hn : n ∈ nodes) (hu : untouched n edges) :
    (connectedNodeIds edges).length < nodes.length := by
  have hnodup : (connectedNodeIds edges).Nodup := List.nodup_dedup _
  have hcard : (connectedNodeIds edges).toFinset.card = (connectedNodeIds edges).length :=
    List.toFinset_card_of_nodup hnodup
  have hid_mem : n.id ∈ (nodes.map Node.id).toFinset := by
    simp only [List.mem_toFinset]
    exact List.mem_map_of_mem Node.id hn
  have hid_not : n.id ∉ connectedNodeIds edges := untouched_iff_not_mem.mp hu
  have hsub : (connectedNodeIds edges).toFinset ⊆
      ((nodes.map Node.id).toFinset).erase n.id := by
    intro s hs
    rw [List.mem_toFinset] at hs
    rw [Finset.mem_erase]
    refine ⟨?_, ?_⟩
    · intro hcontra
      exact hid_not (hcontra ▸ hs)
    · rw [List.mem_toFinset]
      exact connectedNodeIds_subset hwf s hs
  have h1 := Finset.card_le_card hsub
  have h2 := Finset.card_erase_of_mem hid_mem
  have h3 : 0 < ((nodes.map Node.id).toFinset).card := Finset.card_pos.mpr ⟨n.id, hid_mem⟩
  have h4 : ((nodes.map Node.id).toFinset).card ≤ (nodes.map Node.id).length :=
    List.toFinset_card_le _
  have h5 : (nodes.map Node.id).length = nodes.length := List.length_map _ _
  omega

/-- On a well-formed multi-node graph the disconnected-node block emits the
not-connected warning exactly over the untouched nodes, in node-list order. -/
lemma discWarnings_eq {nodes : List Node} {edges : List Edge}
    (hlen : 1 < nodes.length)
    (hwf : ∀ e ∈ edges, e.source ∈ nodes.map Node.id ∧ e.target ∈ nodes.map Node.id) :
    discWarnings nodes edges
      = (nodes.filter fun n => decide (untouched n edges)).map notConnectedWarning := by
  have hfe : (nodes.filter fun n => decide (n.id ∉ connectedNodeIds edges))
      = nodes.filter fun n => decide (untouched n edges) := by
    apply List.filter_congr
    intro n _
    simp [untouched_iff_not_mem]
  by_cases hex : ∃ n ∈ nodes, untouched n edges
  · obtain ⟨n, hn, hu⟩ := hex
    rw [discWarnings, if_pos ⟨hlen, connectedNodeIds_length_lt hwf hn hu⟩, hfe]
  · have hfil : (nodes.filter fun n => decide (untouched n edges)) = [] := by
      rw [List.filter_eq_nil_iff]
      intro n hn
      simp only [decide_eq_true_eq]
      exact fun hu => hex ⟨n, hn, hu⟩
    rw [hfil, List.map_nil, discWarnings]
    split
    · rw [hfe, hfil, List.map_nil]
    · rfl

/-- Nodes whose id differs from that of `n` contribute no copy of the
missing-type error of `n`. -/
lemma count_perNodeFindings_noType_zero (nodes : List Node) (n : Node)
    (hid : ∀ m ∈ nodes, m.id ≠ n.id) :
    (perNodeFindings nodes).count (noTypeError n) = 0 := by
  rw [List.count_eq_zero]
  intro hmem
  obtain ⟨m, hm, hcase⟩ := mem_perNodeFindings hmem
  rcases hcase with ⟨heq, _⟩ | ⟨heq, _⟩
  · exact hid m hm (noTypeError_eq_iff.mp heq.symm)
  · exact noTypeError_ne_noConfigWarning n m heq

/-- Nodes whose id differs from that of `n` contribute no copy of the
no-configuration warning of `n`. -/
lemma count_perNodeFindings_noConfig_zero (nodes : List Node) (n : Node)
    (hid : ∀ m ∈ nodes, m.id ≠ n.id) :
    (perNodeFindings nodes).count (noConfigWarning n) = 0 := by
  rw [List.count_eq_zero]
  intro hmem
  obtain ⟨m, hm, hcase⟩ := mem_perNodeFindings hmem
  rcases hcase with ⟨heq, _⟩ | ⟨heq, _⟩
  · exact noTypeError_ne_noConfigWarning m n heq.symm
  · exact hid m hm (noConfigWarning_id_of_eq heq.symm)

/-- With unique node ids, the per-node loop pushes the missing-type error of a
node exactly once when its type is falsy, and never otherwise. -/
lemma count_perNodeFindings_noType (nodes : List Node) (n : Node)
    (hn : n ∈ nodes) (hnd : (nodes.map Node.id).Nodup) :
    (perNodeFindings nodes).count (noTypeError n)
      = if isTruthy n.data.type then 0 else 1 := by
  induction nodes with
  | nil => cases hn
  | cons m rest ih =>
    rw [List.map_cons, List.nodup_cons] at hnd
    rw [perNodeFindings, List.flatMap_cons, ← perNodeFindings, List.count_append]
    rcases List.mem_cons.mp hn with rfl | hrest
    · have hz : (perNodeFindings rest).count (noTypeError n) = 0 := by
        apply count_perNodeFindings_noType_zero
        intro m' hm' heq
        exact hnd.1 (heq ▸ List.mem_map_of_mem Node.id hm')
      rw [hz, List.count_append]
      have hz2 : (if hasConfig n then ([] : List ValidationError)
          else [noConfigWarning n]).count (noTypeError n) = 0 := by
        rw [List.count_eq_zero]
        intro hmem
        split at hmem
        · cases hmem
        · rw [List.mem_singleton] at hmem
          exact noTypeError_ne_noConfigWarning n n hmem
      rw [hz2]
      rcases h : isTruthy n.data.type
      · simp
      · simp
    · have hmne : m.id ≠ n.id := by
        intro heq
        exact hnd.1 (heq ▸ List.mem_map_of_mem Node.id hrest)
      have hz : (((if isTruthy m.data.type then [] else [noTypeError m]) ++
          (if hasConfig m then [] else [noConfigWarning m])).count (noTypeError n)) = 0 := by
        rw [List.count_eq_zero, List.mem_append]
        rintro (hmem | hmem)
        · split at hmem
          · cases hmem
          · rw [List.mem_singleton] at hmem
            exact hmne (noTypeError_eq_iff.mp hmem.symm)
        · split at hmem
          · cases hmem
          · rw [List.mem_singleton] at hmem
            exact noTypeError_ne_noConfigWarning n m hmem
      rw [hz, ih hrest hnd.2, Nat.zero_add]

/-- With unique node ids, the per-node loop pushes the no-configuration warning
of a node exactly once when it has no configuration, and never otherwise. -/
lemma count_perNodeFindings_noConfig (nodes : List Node) (n : Node)
    (hn : n ∈ nodes) (hnd : (nodes.map Node.id).Nodup) :
    (perNodeFindings nodes).count (noConfigWarning n)
      = if hasConfig n then 0 else 1 := by
  induction nodes with
  | nil => cases hn
  | cons m rest ih =>
    rw [List.map_cons, List.nodup_cons] at hnd
    rw [perNodeFindings, List.flatMap_cons, ← perNodeFindings, List.count_append]
    rcases List.mem_cons.mp hn with rfl | hrest
    · have hz : (perNodeFindings rest).count (noConfigWarning n) = 0 := by
        apply count_perNodeFindings_noConfig_zero
        intro m' hm' heq
        exact hnd.1 (heq ▸ List.mem_map_of_mem Node.id hm')
      rw [hz, List.count_append]
      have hz2 : (if isTruthy n.data.type then ([] : List ValidationError)
          else [noTypeError n]).count (noConfigWarning n) = 0 := by
        rw [List.count_eq_zero]
        intro hmem
        split at hmem
        · cases hmem
        · rw [List.mem_singleton] at hmem
          exact noTypeError_ne_noConfigWarning n n hmem.symm
      rw [hz2]
      rcases h : hasConfig n
      · simp
      · simp
    · have hmne : m.id ≠ n.id := by
        intro heq
        exact hnd.1 (heq ▸ List.mem_map_of_mem Node.id hrest)
      have hz : (((if isTruthy m.data.type then [] else [noTypeError m]) ++
          (if hasConfig m then [] else [noConfigWarning m])).count
            (noConfigWarning n)) = 0 := by
        rw [List.count_eq_zero, List.mem_append]
        rintro (hmem | hmem)
        · split at hmem
          · cases hmem
          · rw [List.mem_singleton] at hmem
            exact noTypeError_ne_noConfigWarning m n hmem.symm
        · split at hmem
          · cases hmem
          · rw [List.mem_singleton] at hmem
            exact hmne (noConfigWarning_id_of_eq hmem.symm)
      rw [hz, ih hrest hnd.2, Nat.zero_add]

/-! Claim theorems. -/

/-- Claim C1 (amended): on a WebSocket disconnect the `useWebSocket` close
handler schedules exactly one reconnect attempt, after a fixed 3000 ms delay,
and the reconnect re-subscribes with only the execution id — it carries no
sequence number, so no replay point is requested. -/
theorem useWebSocket_onclose_reconnect (executionId : String) :
    oncloseActions.filter isScheduleReconnect = [CloseAction.scheduleReconnect 3000]
    ∧ oncloseActions.countP isScheduleReconnect = 1
    ∧ (reconnectSubscribeRequest executionId).fromSequence = none :=
  ⟨rfl, rfl, rfl⟩

/-- Claim C1 counterexample: a client that saw sequences 0 and 1, disconnected
while 2 and 3 were published, and reconnected with the request the code issues
(no sequence number) receives 0, 1, 4 — missing 2 and 3 — whereas re-subscribing
from the last-seen sequence number would have yielded the gap-free 0..4 that a
never-disconnected client observes. -/
theorem useWebSocket_reconnect_gap_counterexample :
    ([0, 1] ++ subscribeDelivered [0, 1, 2, 3] [4]
        (reconnectSubscribeRequest "exec-1").fromSequence) = [0, 1, 4]
    ∧ ([0, 1] ++ subscribeDelivered [0, 1, 2, 3] [4] (some 2)) = [0, 1, 2, 3, 4]
    ∧ ([0, 1, 4] : List Nat) ≠ [0, 1, 2, 3, 4] :=
  ⟨rfl, rfl, by decide⟩

/-- Claim C2 (amended): for a graph with more than one node whose edge
endpoints all reference existing node ids, `validateFlow` emits not-connected
warnings exactly for the nodes touched by no edge; these warnings are the only
not-connected entries, have warning severity, and leave `isValid` entirely
determined by the per-node findings. -/
theorem validateFlow_notConnected_exactly (nodes : List Node) (edges : List Edge)
    (hlen : 1 < nodes.length)
    (hwf : ∀ e ∈ edges, e.source ∈ nodes.map Node.id ∧ e.target ∈ nodes.map Node.id) :
    (validateFlow nodes edges).errors
        = perNodeFindings nodes
          ++ (nodes.filter fun n => decide (untouched n edges)).map notConnectedWarning
    ∧ (∀ e ∈ perNodeFindings nodes, ∀ n : Node, e ≠ notConnectedWarning n)
    ∧ (∀ n : Node, (notConnectedWarning n).type = Sev.warning)
    ∧ (validateFlow nodes edges).isValid
        = !((perNodeFindings nodes).any fun e => decide (e.type = Sev.error)) := by
  have h0 : nodes ≠ [] := by
    intro h
    rw [h] at hlen
    simp at hlen
  refine ⟨?_, ?_, fun n => rfl, ?_⟩
  · rw [validateFlow_of_ne_nil _ h0]
    show flowFindings nodes edges = _
    rw [flowFindings, discWarnings_eq hlen hwf]
  · intro e he n
    obtain ⟨m, _, hcase⟩ := mem_perNodeFindings he
    rcases hcase with ⟨rfl, _⟩ | ⟨rfl, _⟩
    · exact noTypeError_ne_notConnectedWarning m n
    · exact noConfigWarning_ne_notConnectedWarning m n
  · rw [validateFlow_of_ne_nil _ h0]
    show (!((flowFindings nodes edges).any fun e => decide (e.type = Sev.error)))
        = !((perNodeFindings nodes).any fun e => decide (e.type = Sev.error))
    rw [flowFindings, List.any_append]
    have hdisc : (discWarnings nodes edges).any (fun e => decide (e.type = Sev.error))
        = false := by
      rw [List.any_eq_false]
      intro e he
      obtain ⟨n, _, rfl, _⟩ := mem_discWarnings he
      simp [notConnectedWarning]
    rw [hdisc, Bool.or_false]

/-- Witness for claim C2: the amended statement evaluated on the two-node
graph joined by the single edge from a to b. -/
theorem validateFlow_notConnected_exactly_witness :
    (validateFlow [nodeA, nodeB] [edgeAB]).errors
        = perNodeFindings [nodeA, nodeB]
          ++ (([nodeA, nodeB].filter fun n => decide (untouched n [edgeAB])).map
                notConnectedWarning)
    ∧ (∀ e ∈ perNodeFindings [nodeA, nodeB], ∀ n : Node, e ≠ notConnectedWarning n)
    ∧ (∀ n : Node, (notConnectedWarning n).type = Sev.warning)
    ∧ (validateFlow [nodeA, nodeB] [edgeAB]).isValid
        = !((perNodeFindings [nodeA, nodeB]).any fun e => decide (e.type = Sev.error)) :=
  validateFlow_notConnected_exactly [nodeA, nodeB] [edgeAB] (by decide) (by decide)

/-- Claim C2 counterexample: in the two-node graph with only the dangling edge
from a to the non-existent id z, node b is touched by no edge, yet
`validateFlow` emits no warning at all for it — the size-based guard is fooled
by the dangling endpoint. -/
theorem validateFlow_dangling_edge_counterexample :
    1 < ([nodeA, nodeB] : List Node).length
    ∧ untouched nodeB [edgeAZ]
    ∧ notConnectedWarning nodeB ∉ (validateFlow [nodeA, nodeB] [edgeAZ]).errors
    ∧ (validateFlow [nodeA, nodeB] [edgeAZ]).errors = [] := by
  refine ⟨by decide, by decide, ?_, by decide⟩
  decide

/-- Claim C3: `validateFlow` performs no cycle detection — when every node of a
non-empty graph carries a truthy agent type, the result is valid no matter what
the edges are (cyclic or not), and every emitted entry is a configuration or
connectivity warning, never a cycle-related finding. -/
theorem validateFlow_no_cycle_detection (nodes : List Node) (edges : List Edge)
    (h0 : nodes ≠ []) (hty : ∀ n ∈ nodes, isTruthy n.data.type = true) :
    (validateFlow nodes edges).isValid = true ∧
      ∀ e ∈ (validateFlow nodes edges).errors,
        e.type = Sev.warning ∧
          ∃ n ∈ nodes, e = noConfigWarning n ∨ e = notConnectedWarning n := by
  have hall : ∀ e ∈ flowFindings nodes edges,
      e.type = Sev.warning ∧
        ∃ n ∈ nodes, e = noConfigWarning n ∨ e = notConnectedWarning n := by
    intro e he
    rw [flowFindings, List.mem_append] at he
    rcases he with he | he
    · obtain ⟨n, hn, hcase⟩ := mem_perNodeFindings he
      rcases hcase with ⟨rfl, hf⟩ | ⟨rfl, _⟩
      · rw [hty n hn] at hf
        exact absurd hf (by simp)
      · exact ⟨rfl, n, hn, Or.inl rfl⟩
    · obtain ⟨n, hn, rfl, _⟩ := mem_discWarnings he
      exact ⟨rfl, n, hn, Or.inr rfl⟩
  constructor
  · rw [validateFlow_of_ne_nil _ h0]
    simp only [Bool.not_eq_true', List.any_eq_false, decide_eq_true_eq]
    intro e he
    rw [(hall e he).1]
    simp
  · intro e he
    rw [validateFlow_of_ne_nil _ h0] at he
    exact hall e he

/-- Witness for claim C3: a two-node graph whose edges form the cycle
a to b to a still validates successfully. -/
theorem validateFlow_no_cycle_detection_witness :
    (validateFlow [nodeA, nodeB] [edgeAB, edgeBA]).isValid = true ∧
      ∀ e ∈ (validateFlow [nodeA, nodeB] [edgeAB, edgeBA]).errors,
        e.type = Sev.warning ∧
          ∃ n ∈ [nodeA, nodeB], e = noConfigWarning n ∨ e = notConnectedWarning n :=
  validateFlow_no_cycle_detection [nodeA, nodeB] [edgeAB, edgeBA]
    (by decide) (by decide)

/-- Claim C4: for every graph, `isValid` is true exactly when no error-severity
entry is present, so warnings alone never make a flow invalid. -/
theorem validateFlow_isValid_iff_no_error_entries (nodes : List Node) (edges : List Edge) :
    (validateFlow nodes edges).isValid = true ↔
      ∀ e ∈ (validateFlow nodes edges).errors, e.type ≠ Sev.error := by
  rcases eq_or_ne nodes [] with rfl | h
  · simp [validateFlow, emptyFlowError]
  · rw [validateFlow_of_ne_nil _ h]
    simp [List.any_eq_true]

/-- Claim C5: on an empty node list, `validateFlow` returns invalid with
exactly one finding — the error-severity entry demanding at least one node —
and performs no further structural checks. -/
theorem validateFlow_empty_nodes (edges : List Edge) :
    validateFlow [] edges =
      { isValid := false,
        errors := [{ type := Sev.error, message := "Flow must contain at least one node",
                     nodeId := none }] } := rfl

/-- Claim C6: on a non-empty graph with unique node ids, `validateFlow`
collects all per-node findings — each node with a falsy agent type contributes
exactly one missing-type error, and each node without configuration entries
contributes exactly one no-configuration warning. -/
theorem validateFlow_collects_all_per_node (nodes : List Node) (edges : List Edge)
    (h0 : nodes ≠ []) (hnd : (nodes.map Node.id).Nodup) :
    ∀ n ∈ nodes,
      ((validateFlow nodes edges).errors.count (noTypeError n)
          = if isTruthy n.data.type then 0 else 1)
      ∧ ((validateFlow nodes edges).errors.count (noConfigWarning n)
          = if hasConfig n then 0 else 1) := by
  intro n hn
  rw [validateFlow_of_ne_nil _ h0]
  show (flowFindings nodes edges).count (noTypeError n) = _
    ∧ (flowFindings nodes edges).count (noConfigWarning n) = _
  rw [flowFindings, List.count_append, List.count_append]
  have hd1 : (discWarnings nodes edges).count (noTypeError n) = 0 := by
    rw [List.count_eq_zero]
    intro hmem
    obtain ⟨m, _, heq, _⟩ := mem_discWarnings hmem
    exact noTypeError_ne_notConnectedWarning n m heq
  have hd2 : (discWarnings nodes edges).count (noConfigWarning n) = 0 := by
    rw [List.count_eq_zero]
    intro hmem
    obtain ⟨m, _, heq, _⟩ := mem_discWarnings hmem
    exact noConfigWarning_ne_notConnectedWarning n m heq
  rw [hd1, hd2, count_perNodeFindings_noType nodes n hn hnd,
      count_perNodeFindings_noConfig nodes n hn hnd]
  exact ⟨Nat.add_zero _, Nat.add_zero _⟩

/-- Witness for claim C6: in the graph with nodes a and c where c lacks both an
agent type and configuration, c receives exactly one error and one warning. -/
theorem validateFlow_collects_all_per_node_witness :
    ((validateFlow [nodeA, nodeC] []).errors.count (noTypeError nodeC) = 1)
    ∧ ((validateFlow [nodeA, nodeC] []).errors.count (noConfigWarning nodeC) = 1) := by
  have h := validateFlow_collects_all_per_node [nodeA, nodeC] []
    (by decide) (by decide) nodeC (by decide)
  simpa using h

/-- Claim C7: the Sidebar run handler invokes the run action exactly when
`validateFlow` reports the graph valid; otherwise it shows the joined
error-severity messages and does not run. -/
theorem handleRunFlow_gates_on_validation (nodes : List Node) (edges : List Edge) :
    (handleRunFlow nodes edges).runInvoked = (validateFlow nodes edges).isValid ∧
      (handleRunFlow nodes edges).validationMessage =
        (if (validateFlow nodes edges).isValid then ""
         else "❌ Flow validation failed:\n" ++ String.intercalate "\n"
           (((validateFlow nodes edges).errors.filter fun e =>
               decide (e.type = Sev.error)).map ValidationError.message)) := by
  cases h : (validateFlow nodes edges).isValid <;> simp [handleRunFlow, h]

/-- Claim C8: `validateFlow` is a deterministic function of its two inputs —
two calls on equal node and edge lists return identical results. -/
theorem validateFlow_congr (nodesA nodesB : List Node) (edgesA edgesB : List Edge)
    (hn : nodesA = nodesB) (he : edgesA = edgesB) :
    validateFlow nodesA edgesA = validateFlow nodesB edgesB := by
  rw [hn, he]

/-- Witness for claim C8: two calls on the one-node graph coincide. -/
theorem validateFlow_congr_witness :
    validateFlow [nodeA] [edgeAB] = validateFlow [nodeA] [edgeAB] :=
  validateFlow_congr [nodeA] [nodeA] [edgeAB] [edgeAB] rfl rfl

/-- Claim C9: `updateNodeConfig` only replaces `data.config` on nodes whose id
matches — length and order are preserved, non-matching nodes are untouched, a
matching node keeps every other field, and with no matching id the list is
unchanged. -/
theorem updateNodeConfig_frame (nodes : List Node) (nodeId : String)
    (cfg : List (String × String)) :
    (updateNodeConfig nodes nodeId cfg).length = nodes.length ∧
      (∀ i (hi : i < nodes.length) (hi2 : i < (updateNodeConfig nodes nodeId cfg).length),
        ((nodes.get ⟨i, hi⟩).id ≠ nodeId →
            (updateNodeConfig nodes nodeId cfg).get ⟨i, hi2⟩ = nodes.get ⟨i, hi⟩) ∧
        ((nodes.get ⟨i, hi⟩).id = nodeId →
            (updateNodeConfig nodes nodeId cfg).get ⟨i, hi2⟩ =
              { nodes.get ⟨i, hi⟩ with
                  data := { (nodes.get ⟨i, hi⟩).data with config := some cfg } })) ∧
      ((∀ n ∈ nodes, n.id ≠ nodeId) → updateNodeConfig nodes nodeId cfg = nodes) := by
  refine ⟨by simp [updateNodeConfig], ?_, ?_⟩
  · intro i hi hi2
    simp only [List.get_eq_getElem]
    constructor
    · intro hne
      simp only [updateNodeConfig, List.getElem_map]
      rw [if_neg hne]
    · intro heq
      simp only [updateNodeConfig, List.getElem_map]
      rw [if_pos heq]
  · intro hall
    rw [updateNodeConfig]
    conv_rhs => rw [← List.map_id nodes]
    apply List.map_congr_left
    intro n hn
    rw [if_neg (hall n hn)]
    rfl

/-- Witness for claim C9: updating the config of b leaves a untouched, rewrites
only the config of b, and updating a non-existent id changes nothing. -/
theorem updateNodeConfig_frame_witness :
    (updateNodeConfig [nodeA, nodeB] "b" [("limit", "10")]).length = 2
    ∧ (updateNodeConfig [nodeA, nodeB] "b" [("limit", "10")]).get ⟨0, by decide⟩ = nodeA
    ∧ (updateNodeConfig [nodeA, nodeB] "b" [("limit", "10")]).get ⟨1, by decide⟩ =
        { nodeB with data := { nodeB.data with config := some [("limit", "10")] } }
    ∧ updateNodeConfig [nodeA, nodeB] "zz" [("x", "1")] = [nodeA, nodeB] :=
  ⟨(updateNodeConfig_frame [nodeA, nodeB] "b" [("limit", "10")]).1,
   ((updateNodeConfig_frame [nodeA, nodeB] "b" [("limit", "10")]).2.1 0
      (by decide) (by decide)).1 (by decide),
   ((updateNodeConfig_frame [nodeA, nodeB] "b" [("limit", "10")]).2.1 1
      (by decide) (by decide)).2 (by decide),
   (updateNodeConfig_frame [nodeA, nodeB] "zz" [("x", "1")]).2.2 (by decide)⟩

/-- Claim C10: when the WebSocket payload fails to parse, the message handler
only logs the failure — the `onMessage` callback is never invoked and the
handler returns normally. -/
theorem onmessage_swallows_parse_failures {α : Type} (parseJSON : String → Option α)
    (eventData : String) (h : parseJSON eventData = none) :
    onmessageHandler parseJSON eventData = [WsEffect.logParseError] ∧
      ∀ d : α, WsEffect.callOnMessage d ∉ onmessageHandler parseJSON eventData := by
  constructor
  · rw [onmessageHandler, h]
  · intro d hd
    rw [onmessageHandler, h] at hd
    simp at hd

/-- Witness for claim C10: a parser rejecting the payload makes the handler
log the failure and call nothing. -/
theorem onmessage_swallows_parse_failures_witness :
    onmessageHandler (fun _ => (none : Option Nat)) "not json" = [WsEffect.logParseError] ∧
      ∀ d : Nat, WsEffect.callOnMessage d ∉
        onmessageHandler (fun _ => (none : Option Nat)) "not json" :=
  onmessage_swallows_parse_failures (fun _ => (none : Option Nat)) "not json" rfl
